import Mathlib

set_option maxHeartbeats 1000000

/-!
# Verification of the XML-form tool (`src/src/App.tsx`)

Shallow embedding of the core logic of the `employee-connect` repository:
the XML-document-to-form-model parser (`parseXml`) and the form-model-to-CSV
serializer (the CSV construction inside `handleFormSubmit`).

The browser DOM document produced by `DOMParser.parseFromString` is modelled
as a tree of element and text nodes (`XNode`); a document is a sequence of
top-level nodes (`XNodes`).  `getElementsByTagName` on an element returns the
element's proper descendants with the given tag in document (pre-order)
order; on a document it returns all elements, the roots included.
`textContent` is the concatenation of all descendant text nodes.
-/

namespace EmployeeConnect

mutual

inductive XNode : Type where
  | elem (tag : String) (children : XNodes) : XNode
  | text (s : String) : XNode

inductive XNodes : Type where
  | nil : XNodes
  | cons (hd : XNode) (tl : XNodes) : XNodes

end

/-- Build an `XNodes` sequence from a Lean list (for writing concrete documents). -/
def XNodes.ofList : List XNode → XNodes
  | [] => .nil
  | n :: ns => .cons n (XNodes.ofList ns)

/-- Shorthand for building a concrete element node. -/
def el (tag : String) (cs : List XNode) : XNode :=
  XNode.elem tag (XNodes.ofList cs)

/-- Shorthand for building a concrete text node. -/
def tx (s : String) : XNode :=
  XNode.text s

mutual

/-- DOM `Node.textContent` of an element or text node: the concatenation of
the text of all descendant text nodes, in document order. -/
def XNode.textContent : XNode → String
  | .text s => s
  | .elem _ cs => XNodes.textContent cs

/-- `textContent` of a sequence of sibling nodes. -/
def XNodes.textContent : XNodes → String
  | .nil => ""
  | .cons n ns => XNode.textContent n ++ XNodes.textContent ns

end

mutual

/-- All element nodes of the subtree rooted at a node, the node itself
included when it is an element, in document (pre-order) order. -/
def XNode.elemsWithin : XNode → List XNode
  | .text _ => []
  | .elem t cs => XNode.elem t cs :: XNodes.elemsWithin cs

/-- All element nodes within a sequence of sibling subtrees, in document order. -/
def XNodes.elemsWithin : XNodes → List XNode
  | .nil => []
  | .cons n ns => XNode.elemsWithin n ++ XNodes.elemsWithin ns

end

/-- Does this node have the given element tag name? -/
def XNode.hasTag (tag : String) : XNode → Bool
  | .elem t _ => t == tag
  | .text _ => false

/-- DOM `element.getElementsByTagName(tag)`: the proper descendants of the
element carrying the tag, in document order (the element itself excluded). -/
def XNode.getByTag (tag : String) (n : XNode) : List XNode :=
  match n with
  | .text _ => []
  | .elem _ cs => (XNodes.elemsWithin cs).filter (fun m => XNode.hasTag tag m)

/-- DOM `document.getElementsByTagName(tag)` over a document given by its
top-level node sequence: every element of the document with the tag, the root
elements included, in document order. -/
def docGet (tag : String) (doc : XNodes) : List XNode :=
  (XNodes.elemsWithin doc).filter (fun m => XNode.hasTag tag m)

/-! ## The data model (`interface Field` in `App.tsx`)

The source field `List: { Item: string[] }` is flattened to `listItems`,
since `List` and `Type` cannot be used as Lean field names. -/

structure Field where
  id : String
  label : String
  type : String
  listItems : List String
  visible : Bool
  mandatory : Bool
  displayOnly : Bool
  comment : String
deriving DecidableEq

/-- `field.getElementsByTagName(tag)[0]?.textContent || ''`: the raw text
content of the first descendant with the tag, or `""` when there is none. -/
def textOrEmpty (tag : String) (field : XNode) : String :=
  match (XNode.getByTag tag field).head? with
  | some n => XNode.textContent n
  | none => ""

/-- `field.getElementsByTagName(tag)[0]?.textContent === 'true'`. -/
def textIsTrue (tag : String) (field : XNode) : Bool :=
  match (XNode.getByTag tag field).head? with
  | some n => XNode.textContent n == "true"
  | none => false

/-- The `List`/`Item` extraction loop of `parseXml` (`App.tsx` lines 67-78):
take the first `List` descendant of the field, if any; if it has `Item`
descendants, push the text content of each one that is non-empty. -/
def parseListItems (field : XNode) : List String :=
  match (XNode.getByTag "List" field).head? with
  | none => []
  | some l =>
      let items := XNode.getByTag "Item" l
      if items.length > 0 then
        (items.map XNode.textContent).filter (fun s => !(s == ""))
      else []

/-- The per-`Field` extraction of `parseXml` (`App.tsx` lines 65-98). -/
def parseField (field : XNode) : Field :=
  { id := textOrEmpty "Id" field
    label := textOrEmpty "Label" field
    type := textOrEmpty "Type" field
    listItems := parseListItems field
    visible := textIsTrue "Visible" field
    mandatory := textIsTrue "Mandatory" field
    displayOnly := textIsTrue "DisplayOnly" field
    comment := textOrEmpty "Comment" field }

/-- The failure modes of `parseXml`: the three user-facing error messages of
the spec's taxonomy plus the defensive re-check message
`'No valid fields found in the XML'` (`App.tsx` line 101). -/
inductive ParseError : Type where
  | Empty : ParseError
  | Malformed : ParseError
  | NoFields : ParseError
  | NoValidFields : ParseError
deriving DecidableEq

/-- The result of a parse attempt: the spec's `Result<FormModel, ParseError>`. -/
inductive ParseResult : Type where
  | error (e : ParseError) : ParseResult
  | ok (fields : List Field) : ParseResult
deriving DecidableEq

/-- The pure core of `parseXml` (`App.tsx` lines 42-103).  `xmlContent` is
the uploaded text; `doc` is the document that `DOMParser.parseFromString`
returns for it (the parser never throws: on a well-formedness error it
returns a document containing a `parsererror` element). -/
def parseXmlCore (xmlContent : String) (doc : XNodes) : ParseResult :=
  if xmlContent = "" then .error .Empty
  else if 0 < (docGet "parsererror" doc).length then .error .Malformed
  else
    let fieldElements := docGet "Field" doc
    if fieldElements.length = 0 then .error .NoFields
    else
      let fields := fieldElements.map parseField
      if fields.length = 0 then .error .NoValidFields
      else .ok fields

/-! ## The ValueMap and the stateful `parseXml` click handler -/

/-- JavaScript object property assignment `m[k] = v` on a string-keyed
record: when the key is already present its value is updated in place,
otherwise the pair is appended (JS objects preserve string-key insertion
order). -/
def objAssign (m : List (String × String)) (k v : String) : List (String × String) :=
  if m.any (fun p => p.1 == k) then
    m.map (fun p => if p.1 == k then (k, v) else p)
  else m ++ [(k, v)]

/-- JS object property lookup `m[k]`, `none` for a missing key. -/
def objGet (m : List (String × String)) (k : String) : Option String :=
  (m.find? (fun p => p.1 == k)).map (fun p => p.2)

/-- The ValueMap seeding of `parseXml` (`App.tsx` lines 106-111): one
assignment `initialValues[field.Id] = ''` per field with
`field.Visible && !field.DisplayOnly`, in model order. -/
def initialValues (fields : List Field) : List (String × String) :=
  fields.foldl
    (fun acc field =>
      if field.visible && !field.displayOnly then objAssign acc field.id "" else acc)
    []

/-- The component state touched by `parseXml` and `handleFormSubmit`:
the uploaded text and the three `useState` cells it drives. -/
structure AppState where
  xmlContent : String
  formData : Option (List Field)
  formValues : List (String × String)
  error : Option String
deriving DecidableEq

/-- The user-facing message set for each failure mode of `parseXml`. -/
def errorMessage : ParseError → String
  | .Empty => "Please upload an XML file first"
  | .Malformed => "Invalid XML file"
  | .NoFields => "No Field elements found in the XML"
  | .NoValidFields => "No valid fields found in the XML"

/-- The state transition performed by the `parseXml` click handler
(`App.tsx` lines 42-116): on any failure only `error` is set and
`formData` / `formValues` keep their previous contents; on success
`formData` is replaced by the new model and `formValues` by the freshly
seeded ValueMap (the code does not clear `error` on success). -/
def parseXml (doc : XNodes) (s : AppState) : AppState :=
  match parseXmlCore s.xmlContent doc with
  | .error e => { s with error := some (errorMessage e) }
  | .ok fields => { s with formData := some fields, formValues := initialValues fields }

/-! ## The CSV serializer (`handleFormSubmit`, `App.tsx` lines 125-148) -/

/-- JS `Boolean.prototype.toString`. -/
def boolStr (b : Bool) : String :=
  if b then "true" else "false"

/-- The character transformation of `s.replace(/"/g, '""')`: every
double-quote character is doubled, all other characters are kept. -/
def escChars : List Char → List Char
  | [] => []
  | c :: cs => if c = '"' then '"' :: '"' :: escChars cs else c :: escChars cs

/-- `s.replace(/"/g, '""')` on strings. -/
def escQ (s : String) : String :=
  ⟨escChars s.data⟩

/-- A CSV-quoted string cell: the template `"${s.replace(/"/g, '""')}"`. -/
def quoteEsc (s : String) : String :=
  "\"" ++ escQ s ++ "\""

/-- JS `Array.prototype.join(sep)`. -/
def joinSep (sep : String) : List String → String
  | [] => ""
  | [x] => x
  | x :: y :: xs => x ++ sep ++ joinSep sep (y :: xs)

/-- The CSV header array of `handleFormSubmit` (`App.tsx` line 130). -/
def headers : List String :=
  ["Id", "Label", "Type", "Value", "Visible", "Mandatory", "DisplayOnly", "Comment"]

/-- The `rowData` array built for one visible field (`App.tsx` lines
136-145).  The `Value` cell is the template
`"${formValues[field.Id]?.replace(/"/g, '""') || ''}"`; the `|| ''` turns a
missing key into the empty string (on a present key it is the identity,
since the replacement of an empty string is empty). -/
def rowData (formValues : List (String × String)) (field : Field) : List String :=
  [field.id,
   quoteEsc field.label,
   field.type,
   "\"" ++ (match objGet formValues field.id with
            | some v => escQ v
            | none => "") ++ "\"",
   boolStr field.visible,
   boolStr field.mandatory,
   boolStr field.displayOnly,
   quoteEsc field.comment]

/-- The `csvContent` string built by `handleFormSubmit` (`App.tsx` lines
132-148): the joined header row plus, for each field of the model with
`Visible` set, the joined `rowData` row, every row terminated by `'\n'`. -/
def csvContent (fields : List Field) (formValues : List (String × String)) : String :=
  fields.foldl
    (fun csv field =>
      if field.visible then csv ++ joinSep "," (rowData formValues field) ++ "\n" else csv)
    (joinSep "," headers ++ "\n")

/-! ## Helper definitions used by the theorem statements -/

/-- The list underlying a sequence of sibling nodes. -/
def XNodes.toList : XNodes → List XNode
  | .nil => []
  | .cons n ns => n :: XNodes.toList ns

/-- Concatenation of a list of strings. -/
def concatAll : List String → String
  | [] => ""
  | s :: ss => s ++ concatAll ss

/-- One emitted CSV data row (cells joined by commas, `'\n'`-terminated). -/
def dataLine (formValues : List (String × String)) (field : Field) : String :=
  joinSep "," (rowData formValues field) ++ "\n"

/-- The data rows the serializer emits: one per field with `visible` set,
in model order. -/
def visibleRows (fields : List Field) (formValues : List (String × String)) : List String :=
  (fields.filter (fun f => f.visible)).map (fun f => dataLine formValues f)

/-- The emitted header row. -/
def headerLine : String :=
  "Id,Label,Type,Value,Visible,Mandatory,DisplayOnly,Comment\n"

/-- `k` is a key of the string map `m`. -/
def hasKey (m : List (String × String)) (k : String) : Prop :=
  ∃ v, (k, v) ∈ m

/-! ## Definitions written from the claims' wording

These are *not* translations of the source: each one formalises the words of
a claim (or of a claim as amended), to be compared against the functions
above, which are translated from `App.tsx`. -/

/-- Claim C3's wording for the `Value` cell content: the ValueMap entry for
the field's id, the empty string when the key is absent. -/
def specValue (values : List (String × String)) (k : String) : String :=
  match objGet values k with
  | some v => v
  | none => ""

/-- The *direct child* elements of an element with the given tag (no
recursion into grandchildren) — the reading of claims C4/C5, which speak of
"child elements". -/
def childrenWithTag (tag : String) (e : XNode) : List XNode :=
  match e with
  | .elem _ cs => (XNodes.toList cs).filter (fun n => XNode.hasTag tag n)
  | .text _ => []

/-- Whitespace trimming of a string (both ends), for claim C4's
"trimmed text content". -/
def trimStr (s : String) : String :=
  ⟨((s.data.dropWhile Char.isWhitespace).reverse.dropWhile Char.isWhitespace).reverse⟩

/-- Claim C4 as stated: the trimmed text content of the first matching
*child* element, `""` when absent. -/
def specC4String (tag : String) (e : XNode) : String :=
  match (childrenWithTag tag e).head? with
  | some n => trimStr (XNode.textContent n)
  | none => ""

/-- Claim C5 as stated: true iff the text content of the corresponding
*child* element is exactly the literal `"true"`; absent child gives false. -/
def specC5Bool (tag : String) (e : XNode) : Bool :=
  match (childrenWithTag tag e).head? with
  | some n => XNode.textContent n == "true"
  | none => false

/-- The element lookup of the amended claims C4/C5, written from the amended
wording: the raw (untrimmed) text content of the first *descendant* element
with the given tag, in document order, `""` when there is none. -/
def extractedText (tag : String) (e : XNode) : String :=
  match (XNode.getByTag tag e).head? with
  | some n => XNode.textContent n
  | none => ""

/-- Claim C9's wording: the non-empty text contents of the descendant `Item`
elements of the field's (first) `List` element, in document order; `[]` when
the field has no `List` element. -/
def specC9Items (e : XNode) : List String :=
  match (XNode.getByTag "List" e).head? with
  | none => []
  | some l => ((XNode.getByTag "Item" l).map XNode.textContent).filter (fun s => !(s == ""))

/-- Claim C1's `Malformed` clause as stated: the parse fails with
`Malformed` if and only if the XML parser itself reported a well-formedness
error on the input (`reportedError`).  `DOMParser` signals an error by
returning a document that contains a `parsererror` element, so
`reportedError = true` implies such an element is present — but not
conversely, which is what refutes this clause. -/
def claimC1MalformedIff (xmlText : String) (doc : XNodes) (reportedError : Bool) : Prop :=
  (parseXmlCore xmlText doc = ParseResult.error ParseError.Malformed) ↔ reportedError = true

/-! ## Concrete inputs for counterexamples and witnesses -/

/-- A well-formed input that itself contains a `parsererror` element (and a
`Field` element): `DOMParser` parses it without reporting any error. -/
def c1Text : String :=
  "<Form><parsererror></parsererror><Field><Id>a</Id></Field></Form>"

/-- The document `DOMParser` returns for `c1Text`. -/
def c1Doc : XNodes :=
  XNodes.ofList [el "Form" [el "parsererror" [], el "Field" [el "Id" [tx "a"]]]]

/-- A minimal valid input with one visible field. -/
def c2Text : String :=
  "<Form><Field><Id>f1</Id><Type>Text</Type><Visible>true</Visible></Field></Form>"

/-- The document for `c2Text`. -/
def c2Doc : XNodes :=
  XNodes.ofList [el "Form"
    [el "Field" [el "Id" [tx "f1"], el "Type" [tx "Text"], el "Visible" [tx "true"]]]]

/-- The model the parser produces from `c2Doc`. -/
def c2Model : List Field :=
  [{ id := "f1", label := "", type := "Text", listItems := [], visible := true,
     mandatory := false, displayOnly := false, comment := "" }]

/-- A `Field` element whose `Id` element is nested one level down and whose
text carries surrounding blanks: `<Field><Wrap><Id> x </Id></Wrap></Field>`. -/
def c4FieldElem : XNode :=
  el "Field" [el "Wrap" [el "Id" [tx " x "]]]

/-- A plain `Field` element with a direct `Id` child. -/
def c4WitnessElem : XNode :=
  el "Field" [el "Id" [tx "v7"]]

/-- A `Field` element whose `Visible` element is nested one level down:
`<Field><Nested><Visible>true</Visible></Nested></Field>`. -/
def c5FieldElem : XNode :=
  el "Field" [el "Nested" [el "Visible" [tx "true"]]]

/-- A `Field` element with `<Visible>True</Visible>` (capitalised). -/
def c5TrueElem : XNode :=
  el "Field" [el "Visible" [tx "True"]]

/-- An input with two visible, editable fields sharing the id `a`. -/
def c6Text : String :=
  "<Form><Field><Id>a</Id><Visible>true</Visible></Field><Field><Id>a</Id><Visible>true</Visible></Field></Form>"

/-- The document for `c6Text`. -/
def c6Doc : XNodes :=
  XNodes.ofList [el "Form"
    [el "Field" [el "Id" [tx "a"], el "Visible" [tx "true"]],
     el "Field" [el "Id" [tx "a"], el "Visible" [tx "true"]]]]

/-- The model the parser produces from `c6Doc`: two descriptors, same id. -/
def c6Model : List Field :=
  [{ id := "a", label := "", type := "", listItems := [], visible := true,
     mandatory := false, displayOnly := false, comment := "" },
   { id := "a", label := "", type := "", listItems := [], visible := true,
     mandatory := false, displayOnly := false, comment := "" }]

/-- A fresh component state holding the text of `c2Doc`. -/
def c6State : AppState :=
  { xmlContent := c2Text, formData := none, formValues := [], error := none }

/-- A state holding a previously generated form and a typed-in value, with
an empty upload buffer (so the next parse attempt fails with `Empty`). -/
def c7State : AppState :=
  { xmlContent := "", formData := some c2Model, formValues := [("f1", "old")], error := none }

/-- A non-`Dropdown` field carrying a `List`:
`<Field><Type>Text</Type><List><Item>A</Item></List></Field>`. -/
def c8FieldElem : XNode :=
  el "Field" [el "Type" [tx "Text"], el "List" [el "Item" [tx "A"]]]

/-- The input text for `c8Doc`. -/
def c8Text : String :=
  "<Form><Field><Type>Text</Type><List><Item>A</Item></List></Field></Form>"

/-- The document for `c8Text`. -/
def c8Doc : XNodes :=
  XNodes.ofList [el "Form" [c8FieldElem]]

/-- A field with a `Type` but no `List` element. -/
def c8NoListElem : XNode :=
  el "Field" [el "Type" [tx "Text"]]

/-- The field of property P5: `<List><Item></Item><Item>A</Item></List>`. -/
def c9FieldElem : XNode :=
  el "Field" [el "List" [el "Item" [], el "Item" [tx "A"]]]

/-- A well-formed input containing both a `parsererror` element and a
`Field` element. -/
def c10Text : String :=
  "<Root><parsererror></parsererror><Field></Field></Root>"

/-- The document for `c10Text`. -/
def c10Doc : XNodes :=
  XNodes.ofList [el "Root" [el "parsererror" [], el "Field" []]]

/-! ## General lemmas -/

theorem sappend_assoc (a b c : String) : a ++ b ++ c = a ++ (b ++ c) := by
  apply String.ext
  simp [String.data_append, List.append_assoc]

theorem sappend_empty (a : String) : a ++ "" = a := by
  apply String.ext
  simp [String.data_append]

theorem sempty_append (a : String) : "" ++ a = a := by
  apply String.ext
  simp [String.data_append]

/-- The CSV fold appends the visible rows after whatever is already in the
accumulator. -/
theorem csv_foldl_eq (fields : List Field) (values : List (String × String)) (acc : String) :
    fields.foldl
      (fun csv field =>
        if field.visible then csv ++ joinSep "," (rowData values field) ++ "\n" else csv)
      acc
      = acc ++ concatAll (visibleRows fields values) := by
  induction fields generalizing acc with
  | nil => simp [visibleRows, concatAll, sappend_empty]
  | cons f fs ih =>
    cases hv : f.visible with
    | false => simp [List.foldl, hv, ih, visibleRows, List.filter_cons, concatAll]
    | true =>
      simp only [List.foldl, hv, if_true]
      rw [ih]
      have hr : visibleRows (f :: fs) values = dataLine values f :: visibleRows fs values := by
        simp [visibleRows, List.filter_cons, hv]
      rw [hr, concatAll, dataLine]
      simp only [sappend_assoc]

/-- `csvContent` is the header line followed by one line per visible field. -/
theorem csvContent_eq (fields : List Field) (values : List (String × String)) :
    csvContent fields values = headerLine ++ concatAll (visibleRows fields values) := by
  unfold csvContent
  rw [csv_foldl_eq]
  have h : joinSep "," headers ++ "\n" = headerLine := by decide
  rw [h]

/-- The CSV fold preserves a trailing newline in the accumulator. -/
theorem csv_foldl_trailing (fields : List Field) (values : List (String × String))
    (acc : String) (h : ∃ t, acc = t ++ "\n") :
    ∃ t, fields.foldl
      (fun csv field =>
        if field.visible then csv ++ joinSep "," (rowData values field) ++ "\n" else csv)
      acc
      = t ++ "\n" := by
  induction fields generalizing acc with
  | nil => exact h
  | cons f fs ih =>
    cases hv : f.visible with
    | false =>
      simp only [List.foldl, hv, if_false]
      exact ih acc h
    | true =>
      simp only [List.foldl, hv, if_true]
      exact ih _ ⟨acc ++ joinSep "," (rowData values f), rfl⟩

/-- `textIsTrue` compares the same extracted text that `extractedText`
returns against the literal `"true"`. -/
theorem textIsTrue_eq (tag : String) (e : XNode) :
    textIsTrue tag e = (extractedText tag e == "true") := by
  unfold textIsTrue extractedText
  cases h : (XNode.getByTag tag e).head? with
  | none => simp
  | some n => simp

/-! ## ValueMap lemmas -/

/-- Every element of `objAssign m k v` is an old entry or the new pair. -/
theorem mem_objAssign (m : List (String × String)) (k v : String) (p : String × String)
    (hp : p ∈ objAssign m k v) : p ∈ m ∨ p = (k, v) := by
  unfold objAssign at hp
  by_cases h : (m.any (fun q => q.1 == k)) = true
  · rw [if_pos h] at hp
    rcases List.mem_map.mp hp with ⟨q, hq, hgq⟩
    by_cases hk : (q.1 == k) = true
    · rw [if_pos hk] at hgq
      exact Or.inr hgq.symm
    · rw [if_neg hk] at hgq
      exact Or.inl (hgq ▸ hq)
  · rw [if_neg h] at hp
    rcases List.mem_append.mp hp with h1 | h2
    · exact Or.inl h1
    · exact Or.inr (List.mem_singleton.mp h2)

/-- The keys of `objAssign m k v`: unchanged when `k` was present, extended
by `k` otherwise. -/
theorem map_fst_objAssign (m : List (String × String)) (k v : String) :
    (objAssign m k v).map Prod.fst =
      if (m.any (fun q => q.1 == k)) = true then m.map Prod.fst
      else m.map Prod.fst ++ [k] := by
  unfold objAssign
  by_cases h : (m.any (fun q => q.1 == k)) = true
  · rw [if_pos h, if_pos h, List.map_map]
    refine List.map_congr_left ?_
    intro q _
    simp only [Function.comp]
    by_cases hk : (q.1 == k) = true
    · rw [if_pos hk]
      exact (eq_of_beq hk).symm
    · rw [if_neg hk]
  · rw [if_neg h, if_neg h, List.map_append]
    rfl

/-- A string is a key of `m` exactly when it occurs among the mapped-out
first components. -/
theorem hasKey_iff_mem_keys (m : List (String × String)) (k : String) :
    hasKey m k ↔ k ∈ m.map Prod.fst := by
  unfold hasKey
  constructor
  · rintro ⟨v, hv⟩
    exact List.mem_map.mpr ⟨(k, v), hv, rfl⟩
  · intro h
    rcases List.mem_map.mp h with ⟨p, hp, rfl⟩
    exact ⟨p.2, by simpa using hp⟩

/-- Key membership after a JS object assignment. -/
theorem hasKey_objAssign (m : List (String × String)) (k v k' : String) :
    hasKey (objAssign m k v) k' ↔ hasKey m k' ∨ k' = k := by
  rw [hasKey_iff_mem_keys, hasKey_iff_mem_keys, map_fst_objAssign]
  by_cases h : (m.any (fun q => q.1 == k)) = true
  · rw [if_pos h]
    constructor
    · exact Or.inl
    · rintro (hk | rfl)
      · exact hk
      · rcases List.any_eq_true.mp h with ⟨q, hq, hqk⟩
        have hq1 : q.1 = k' := eq_of_beq hqk
        exact hq1 ▸ List.mem_map.mpr ⟨q, hq, rfl⟩
  · rw [if_neg h, List.mem_append, List.mem_singleton]

/-- A JS object assignment keeps the keys pairwise distinct. -/
theorem nodup_keys_objAssign (m : List (String × String)) (k v : String)
    (h : (m.map Prod.fst).Nodup) : ((objAssign m k v).map Prod.fst).Nodup := by
  rw [map_fst_objAssign]
  by_cases ha : (m.any (fun q => q.1 == k)) = true
  · rw [if_pos ha]
    exact h
  · rw [if_neg ha, List.nodup_append]
    refine ⟨h, List.nodup_singleton k, ?_⟩
    intro a haa hak
    rw [List.mem_singleton] at hak
    subst hak
    rcases List.mem_map.mp haa with ⟨p, hp, hpk⟩
    exact ha (List.any_eq_true.mpr ⟨p, hp, by simp [hpk]⟩)

/-- Every value produced by the ValueMap seeding fold is the empty string. -/
theorem initialValues_foldl_values (fields : List Field) (acc : List (String × String))
    (hacc : ∀ p ∈ acc, p.2 = "") :
    ∀ p ∈ fields.foldl
        (fun acc field =>
          if field.visible && !field.displayOnly then objAssign acc field.id "" else acc)
        acc, p.2 = "" := by
  induction fields generalizing acc with
  | nil => exact hacc
  | cons f fs ih =>
    simp only [List.foldl]
    by_cases hc : (f.visible && !f.displayOnly) = true
    · rw [if_pos hc]
      refine ih _ ?_
      intro p hp
      rcases mem_objAssign acc f.id "" p hp with h | h
      · exact hacc p h
      · rw [h]
    · rw [if_neg hc]
      exact ih acc hacc

/-- The keys produced by the ValueMap seeding fold: the keys already in the
accumulator plus the ids of the visible, editable fields. -/
theorem initialValues_foldl_hasKey (fields : List Field) (acc : List (String × String))
    (k : String) :
    hasKey (fields.foldl
        (fun acc field =>
          if field.visible && !field.displayOnly then objAssign acc field.id "" else acc)
        acc) k
      ↔ hasKey acc k ∨ ∃ f ∈ fields, (f.visible && !f.displayOnly) = true ∧ f.id = k := by
  induction fields generalizing acc with
  | nil => simp
  | cons f fs ih =>
    simp only [List.foldl]
    by_cases hc : (f.visible && !f.displayOnly) = true
    · rw [if_pos hc, ih, hasKey_objAssign]
      constructor
      · rintro ((hk | rfl) | ⟨g, hg, hgp⟩)
        · exact Or.inl hk
        · exact Or.inr ⟨f, List.mem_cons_self f fs, hc, rfl⟩
        · exact Or.inr ⟨g, List.mem_cons_of_mem f hg, hgp⟩
      · rintro (hk | ⟨g, hg, hgp⟩)
        · exact Or.inl (Or.inl hk)
        · rcases List.mem_cons.mp hg with rfl | hg2
          · exact Or.inl (Or.inr hgp.2.symm)
          · exact Or.inr ⟨g, hg2, hgp⟩
    · rw [if_neg hc, ih]
      constructor
      · rintro (hk | ⟨g, hg, hgp⟩)
        · exact Or.inl hk
        · exact Or.inr ⟨g, List.mem_cons_of_mem f hg, hgp⟩
      · rintro (hk | ⟨g, hg, hgp⟩)
        · exact Or.inl hk
        · rcases List.mem_cons.mp hg with rfl | hg2
          · exact absurd hgp.1 hc
          · exact Or.inr ⟨g, hg2, hgp⟩

/-- The ValueMap seeding fold keeps keys pairwise distinct. -/
theorem initialValues_foldl_nodup (fields : List Field) (acc : List (String × String))
    (hacc : (acc.map Prod.fst).Nodup) :
    ((fields.foldl
        (fun acc field =>
          if field.visible && !field.displayOnly then objAssign acc field.id "" else acc)
        acc).map Prod.fst).Nodup := by
  induction fields generalizing acc with
  | nil => exact hacc
  | cons f fs ih =>
    simp only [List.foldl]
    by_cases hc : (f.visible && !f.displayOnly) = true
    · rw [if_pos hc]
      exact ih _ (nodup_keys_objAssign acc f.id "" hacc)
    · rw [if_neg hc]
      exact ih acc hacc

/-! ## Claim theorems -/

/-- Claim C1 (amended).  `parse(xmlText)` fails with `Empty` iff `xmlText` is
the empty string; fails with `Malformed` iff `xmlText` is non-empty and the
document returned by the XML parser contains an element named `parsererror`
(this covers every parser-reported well-formedness error, and additionally
any well-formed document that itself contains such an element); fails with
`NoFields` iff `xmlText` is non-empty, the document has no `parsererror`
element and contains zero elements named `Field`; never fails with the
defensive `NoValidFields` re-check; and succeeds otherwise, returning one
`FieldDescriptor` per `Field` element in document order. -/
theorem C1_thm (xml : String) (doc : XNodes) :
    (parseXmlCore xml doc = ParseResult.error ParseError.Empty ↔ xml = "") ∧
    (parseXmlCore xml doc = ParseResult.error ParseError.Malformed ↔
      (¬ xml = "" ∧ ¬ docGet "parsererror" doc = [])) ∧
    (parseXmlCore xml doc = ParseResult.error ParseError.NoFields ↔
      (¬ xml = "" ∧ docGet "parsererror" doc = [] ∧ docGet "Field" doc = [])) ∧
    (¬ parseXmlCore xml doc = ParseResult.error ParseError.NoValidFields) ∧
    (∀ model, parseXmlCore xml doc = ParseResult.ok model ↔
      (¬ xml = "" ∧ docGet "parsererror" doc = [] ∧ ¬ docGet "Field" doc = [] ∧
       model = (docGet "Field" doc).map parseField)) := by
  by_cases hx : xml = ""
  · simp [parseXmlCore, hx]
  · by_cases hpe : docGet "parsererror" doc = []
    · by_cases hf : docGet "Field" doc = []
      · simp [parseXmlCore, hx, hpe, hf]
      · simp [parseXmlCore, hx, hpe, hf, List.length_eq_zero, eq_comm]
    · simp [parseXmlCore, hx, hpe, List.length_pos.mpr hpe]

/-- Claim C1 (counterexample to the claim as stated).  On the well-formed
input `c1Text`, which contains both a `parsererror` element and a `Field`
element, the XML parser reports no well-formedness error, yet the parse
fails with `Malformed`: the "fails with Malformed iff the parser reports a
well-formedness error" clause is false. -/
theorem C1_counterexample : ¬ claimC1MalformedIff c1Text c1Doc false := by
  intro h
  unfold claimC1MalformedIff at h
  have hm : parseXmlCore c1Text c1Doc = ParseResult.error ParseError.Malformed := by decide
  exact absurd (h.mp hm) (by decide)

/-- Claim C1 (witness): the amended characterisation applied to the empty
input. -/
theorem C1_witness : parseXmlCore "" XNodes.nil = ParseResult.error ParseError.Empty :=
  (C1_thm "" XNodes.nil).1.mpr rfl

/-- Claim C7.  Whenever the parse fails — for any of the failure modes — the
previously held form model and value map are left unchanged: only the error
message cell of the state is written. -/
theorem C7_thm (doc : XNodes) (s : AppState) (e : ParseError)
    (h : parseXmlCore s.xmlContent doc = ParseResult.error e) :
    (parseXml doc s).formData = s.formData ∧ (parseXml doc s).formValues = s.formValues := by
  unfold parseXml
  rw [h]
  exact ⟨rfl, rfl⟩

/-- Claim C7 (witness): a failed parse (empty upload buffer) over a state that
holds a previously generated form and a typed-in value leaves both intact. -/
theorem C7_witness :
    (parseXml XNodes.nil c7State).formData = c7State.formData ∧
    (parseXml XNodes.nil c7State).formValues = c7State.formValues :=
  C7_thm XNodes.nil c7State ParseError.Empty (by decide)

/-- Claim C8 (counterexample to the claim as stated).  The parser accepts
`c8Doc`, whose single field has type `"Text"` (not `"Dropdown"`) and a
`List` with one item — and that descriptor's `listItems` is `["A"]`, not
empty. -/
theorem C8_counterexample :
    parseXmlCore c8Text c8Doc = ParseResult.ok [parseField c8FieldElem] ∧
    (parseField c8FieldElem).type = "Text" ∧
    ¬ (parseField c8FieldElem).type = "Dropdown" ∧
    (parseField c8FieldElem).listItems = ["A"] ∧
    ¬ (parseField c8FieldElem).listItems = [] := by
  decide

/-- Claim C8 (amended).  `listItems` is driven solely by the `List` element,
independently of `type`: a field element with no `List` descendant parses to
an empty `listItems`, whатever its type; with a `List` element present,
`listItems` may be non-empty even for non-`Dropdown` types (see the
counterexample). -/
theorem C8_thm (e : XNode) (h : XNode.getByTag "List" e = []) :
    (parseField e).listItems = [] := by
  simp [parseField, parseListItems, h]

/-- Claim C8 (witness): a `Text`-typed field without a `List` element. -/
theorem C8_witness : (parseField c8NoListElem).listItems = [] :=
  C8_thm c8NoListElem rfl

/-- Claim C9.  The parsed `listItems` of any field element equals the claim's
description: the non-empty text contents of the `Item` descendants of the
field's first `List` element, in document order, and `[]` for a field
without a `List` element. -/
theorem C9_thm (e : XNode) : (parseField e).listItems = specC9Items e := by
  show parseListItems e = specC9Items e
  unfold parseListItems specC9Items
  cases h : (XNode.getByTag "List" e).head? with
  | none => rfl
  | some l =>
      show (if (XNode.getByTag "Item" l).length > 0 then
              ((XNode.getByTag "Item" l).map XNode.textContent).filter (fun s => !(s == ""))
            else [])
          = ((XNode.getByTag "Item" l).map XNode.textContent).filter (fun s => !(s == ""))
      cases hi : XNode.getByTag "Item" l with
      | nil => rfl
      | cons a as => simp

/-- Claim C9 (witness): property P5 — `<Item></Item><Item>A</Item>` parses to
`["A"]`. -/
theorem C9_witness : (parseField c9FieldElem).listItems = ["A"] :=
  (C9_thm c9FieldElem).trans (by decide)

/-- Claim C10.  Any parse attempt on a non-empty input whose document contains
a `parsererror` element — including a well-formed document that carries its
own `parsererror` element alongside `Field` elements — fails with
`Malformed`, because malformedness is detected by searching the parsed
document for `parsererror` elements. -/
theorem C10_thm (xml : String) (doc : XNodes)
    (hx : ¬ xml = "") (hp : 0 < (docGet "parsererror" doc).length) :
    parseXmlCore xml doc = ParseResult.error ParseError.Malformed := by
  unfold parseXmlCore
  rw [if_neg hx, if_pos hp]

/-- Claim C10 (witness): the well-formed document `c10Doc` contains a `Field`
element and a `parsererror` element; the parse is rejected as malformed. -/
theorem C10_witness : parseXmlCore c10Text c10Doc = ParseResult.error ParseError.Malformed :=
  C10_thm c10Text c10Doc (by decide) (by decide)

/-- The quote-doubling transformation distributes over list concatenation. -/
theorem escChars_append (xs ys : List Char) :
    escChars (xs ++ ys) = escChars xs ++ escChars ys := by
  induction xs with
  | nil => rfl
  | cons c cs ih =>
    by_cases hc : c = '"'
    · simp [escChars, hc, ih]
    · simp [escChars, hc, ih]

/-- The serializer's `Value` cell content is the escape of the claim-side
lookup-with-default. -/
theorem escQ_specValue (values : List (String × String)) (k : String) :
    (match objGet values k with
     | some v => escQ v
     | none => "") = escQ (specValue values k) := by
  unfold specValue
  cases h : objGet values k with
  | none => rfl
  | some v => rfl

/-- Claim C2 (amended: the enumerated header has *eight* columns, not seven).
For a model produced by a successful parse, serializing with an all-empty
ValueMap yields the header line followed by exactly one newline-terminated
data row per field with `visible` set — fields with `visible` unset
contribute no row — and the header row consists of the eight columns
`Id, Label, Type, Value, Visible, Mandatory, DisplayOnly, Comment` in that
order, so the output has one row per visible field plus one header row. -/
theorem C2_thm (xml : String) (doc : XNodes) (model : List Field)
    (values : List (String × String))
    (_hp : parseXmlCore xml doc = ParseResult.ok model)
    (_hv : ∀ p ∈ values, p.2 = "") :
    csvContent model values = headerLine ++ concatAll (visibleRows model values) ∧
    (visibleRows model values).length = (model.filter (fun f => f.visible)).length ∧
    headerLine =
      joinSep ","
        ["Id", "Label", "Type", "Value", "Visible", "Mandatory", "DisplayOnly", "Comment"]
        ++ "\n" ∧
    headers.length = 8 := by
  refine ⟨csvContent_eq model values, ?_, by decide, by decide⟩
  simp [visibleRows]

/-- Claim C2 (counterexample to the claim as stated): on a parsed one-field
model the emitted header row has eight columns, so "exactly these seven
columns" is false (the enumerated column list itself has eight entries). -/
theorem C2_counterexample :
    parseXmlCore c2Text c2Doc = ParseResult.ok c2Model ∧
    csvContent c2Model (initialValues c2Model)
      = "Id,Label,Type,Value,Visible,Mandatory,DisplayOnly,Comment\nf1,\"\",Text,\"\",true,false,false,\"\"\n" ∧
    headers.length = 8 ∧
    ¬ headers.length = 7 := by
  decide

/-- Claim C2 (witness): the amended theorem applied to the concrete one-field
parse with an empty ValueMap. -/
theorem C2_witness : headers.length = 8 :=
  (C2_thm c2Text c2Doc c2Model [] (by decide) (by decide)).2.2.2

/-- Claim C3.  Every emitted data row quotes `Label`, `Value` and `Comment`
(with embedded double quotes doubled by `escQ`, which is characterised by
the three accompanying equations), emits `Id` and `Type` unquoted,
serializes the three booleans as lowercase `true`/`false`, uses the empty
string for `Value` when the field's id is absent from the ValueMap, and
every row — header included — is `'\n'`-terminated, so the whole output
ends with a trailing newline. -/
theorem C3_thm (model : List Field) (values : List (String × String)) :
    csvContent model values =
      headerLine ++ concatAll ((model.filter (fun f => f.visible)).map (fun f =>
        joinSep ","
          [f.id,
           "\"" ++ escQ f.label ++ "\"",
           f.type,
           "\"" ++ escQ (specValue values f.id) ++ "\"",
           boolStr f.visible,
           boolStr f.mandatory,
           boolStr f.displayOnly,
           "\"" ++ escQ f.comment ++ "\""] ++ "\n")) ∧
    escQ (String.singleton '"') = "\"\"" ∧
    (∀ c, ¬ c = '"' → escQ (String.singleton c) = String.singleton c) ∧
    (∀ a b, escQ (a ++ b) = escQ a ++ escQ b) ∧
    (∃ t, csvContent model values = t ++ "\n") := by
  have hrow : ∀ f : Field, dataLine values f =
      joinSep ","
        [f.id,
         "\"" ++ escQ f.label ++ "\"",
         f.type,
         "\"" ++ escQ (specValue values f.id) ++ "\"",
         boolStr f.visible,
         boolStr f.mandatory,
         boolStr f.displayOnly,
         "\"" ++ escQ f.comment ++ "\""] ++ "\n" := by
    intro f
    unfold dataLine rowData quoteEsc
    rw [← escQ_specValue values f.id]
  refine ⟨?_, by decide, ?_, ?_, ?_⟩
  · rw [csvContent_eq, visibleRows]
    exact congrArg (fun rows => headerLine ++ concatAll rows)
      (List.map_congr_left (fun f _ => hrow f))
  · intro c hc
    apply String.ext
    simp [String.singleton, String.data_push, escQ, escChars, hc]
  · intro a b
    apply String.ext
    simp [escQ, String.data_append, escChars_append]
  · unfold csvContent
    exact csv_foldl_trailing model values _ ⟨joinSep "," headers, rfl⟩

/-- Claim C3 (witness): the quote-doubling equation, extracted from the
theorem at the empty model and ValueMap. -/
theorem C3_witness : escQ (String.singleton '"') = "\"\"" :=
  (C3_thm [] []).2.1

/-- Claim C4 (counterexample to the claim as stated).  In
`<Field><Wrap><Id> x </Id></Wrap></Field>` the claim's reading — trimmed
text of the first matching *child* element, `""` if absent — yields `""`,
but the parser stores `" x "`: it searches *descendants* and does not trim.
(Even for a direct child, `" x "` would be stored untrimmed.) -/
theorem C4_counterexample :
    (parseField c4FieldElem).id = " x " ∧
    specC4String "Id" c4FieldElem = "" ∧
    ¬ (parseField c4FieldElem).id = specC4String "Id" c4FieldElem := by
  decide

/-- Claim C4 (amended).  For every `Field` element the parser extracts each
sub-element as the first matching *descendant* (document order); the string
values stored for `Id`, `Label`, `Type`, `Comment` are its *raw, untrimmed*
text content (`""` when absent), and the text compared against `"true"` for
the booleans is likewise the raw text content of the first matching
descendant. -/
theorem C4_thm (e : XNode) :
    (parseField e).id = extractedText "Id" e ∧
    (parseField e).label = extractedText "Label" e ∧
    (parseField e).type = extractedText "Type" e ∧
    (parseField e).comment = extractedText "Comment" e ∧
    (parseField e).visible = (extractedText "Visible" e == "true") ∧
    (parseField e).mandatory = (extractedText "Mandatory" e == "true") ∧
    (parseField e).displayOnly = (extractedText "DisplayOnly" e == "true") :=
  ⟨rfl, rfl, rfl, rfl, textIsTrue_eq "Visible" e, textIsTrue_eq "Mandatory" e,
   textIsTrue_eq "DisplayOnly" e⟩

/-- Claim C4 (witness): a direct `Id` child with plain text is extracted
verbatim. -/
theorem C4_witness : (parseField c4WitnessElem).id = "v7" :=
  (C4_thm c4WitnessElem).1.trans (by decide)

/-- Claim C5 (counterexample to the claim as stated).  In
`<Field><Nested><Visible>true</Visible></Nested></Field>` there is no
*child* element named `Visible`, so the claim's reading gives `false`, but
the parser finds the nested descendant and parses `visible = true`. -/
theorem C5_counterexample :
    (parseField c5FieldElem).visible = true ∧
    specC5Bool "Visible" c5FieldElem = false ∧
    ¬ (parseField c5FieldElem).visible = specC5Bool "Visible" c5FieldElem := by
  decide

/-- Claim C5 (amended: "child element" becomes "first matching descendant
element").  Each parsed boolean is `true` iff the raw text content of the
first matching descendant (`Visible` / `Mandatory` / `DisplayOnly`) is
exactly the case-sensitive literal `"true"`; an absent element or any other
text — `"True"` included — yields `false`. -/
theorem C5_thm (e : XNode) :
    ((parseField e).visible = true ↔ extractedText "Visible" e = "true") ∧
    ((parseField e).mandatory = true ↔ extractedText "Mandatory" e = "true") ∧
    ((parseField e).displayOnly = true ↔ extractedText "DisplayOnly" e = "true") := by
  refine ⟨?_, ?_, ?_⟩ <;> simp [parseField, textIsTrue_eq]

/-- Claim C5 (witness): `<Visible>True</Visible>` (capitalised) parses to
`visible = false`. -/
theorem C5_witness : (parseField c5TrueElem).visible = false := by
  have h := (C5_thm c5TrueElem).1
  cases hb : (parseField c5TrueElem).visible with
  | false => rfl
  | true => exact absurd (h.mp hb) (by decide)

/-- Claim C6 (counterexample to the claim as stated).  `c6Doc` parses to two
visible, editable fields that share the id `"a"`; the seeded ValueMap holds
a single entry, not one entry per qualifying field. -/
theorem C6_counterexample :
    parseXmlCore c6Text c6Doc = ParseResult.ok c6Model ∧
    initialValues c6Model = [("a", "")] ∧
    (c6Model.filter (fun f => f.visible && !f.displayOnly)).length = 2 ∧
    ¬ (initialValues c6Model).length
        = (c6Model.filter (fun f => f.visible && !f.displayOnly)).length := by
  decide

/-- Claim C6 (amended: "one entry per field" becomes "one entry per *distinct
id* among those fields").  Immediately after every successful parse the
ValueMap is the freshly seeded map, every value in it is the empty string,
its keys are exactly the ids of the fields with `visible` set and
`displayOnly` unset (invisible or display-only fields contribute no key of
their own), and its keys are pairwise distinct. -/
theorem C6_thm (doc : XNodes) (s : AppState) (model : List Field)
    (hp : parseXmlCore s.xmlContent doc = ParseResult.ok model) :
    (parseXml doc s).formValues = initialValues model ∧
    (∀ p ∈ initialValues model, p.2 = "") ∧
    (∀ k, hasKey (initialValues model) k ↔
      ∃ f ∈ model, (f.visible && !f.displayOnly) = true ∧ f.id = k) ∧
    ((initialValues model).map Prod.fst).Nodup := by
  refine ⟨?_, ?_, ?_, ?_⟩
  · unfold parseXml
    rw [hp]
  · exact initialValues_foldl_values model [] (by intro p hp2; cases hp2)
  · intro k
    unfold initialValues
    rw [initialValues_foldl_hasKey]
    simp [hasKey]
  · exact initialValues_foldl_nodup model [] (by simp)

/-- Claim C6 (witness): the seeded ValueMap after parsing the one-field
document is exactly `{f1 ↦ ""}`. -/
theorem C6_witness : (parseXml c2Doc c6State).formValues = [("f1", "")] :=
  ((C6_thm c2Doc c6State c2Model (by decide)).1).trans (by decide)

end EmployeeConnect
